import Mathlib

/-!
# Verification of the nova fairness controller core

A shallow embedding of the fairness-controller core of this repository:
the `ResourceInformation` six-dimensional vector algebra
(`nova/fairness/metrics/__init__.py`), the Greediness metric
(`nova/fairness/metrics/greediness.py`), the cloud-supply registry
(`nova/fairness/cloud_supply.py`), the RUI collection helper and the
heaviness exchange (`nova/fairness/manager.py`).

Modelling conventions:
* Python numeric values (ints and floats) are modelled as exact rationals
  `ℚ`; rounding of IEEE floats is abstracted away, but the IEEE special
  values that the numpy code can produce (`inf`, `-inf`, `nan`) are
  modelled explicitly by the type `NpF`, because the Greediness metric
  divides by components of the supply vector without guarding against
  zero.  Negative zero is collapsed to zero (the sign of zero never
  influences the claims settled here, because every division that can see
  a zero denominator has a non-negative numerator).
* Python exceptions (`ZeroDivisionError`, `TypeError`, `AssertionError`)
  are modelled by `Option`: `none` is a raised exception.
* Python dicts are modelled as association lists, preserving the source's
  insertion-order update discipline (replacement in place, new keys
  appended).
-/

namespace NovaFairness

/-- Embedding of `BaseMetric.ResourceInformation`
(`nova/fairness/metrics/__init__.py`): six numeric resource dimensions
plus three optional identifying tags. -/
structure ResourceInformation where
  cpu_time : ℚ
  disk_bytes_read : ℚ
  disk_bytes_written : ℚ
  network_bytes_received : ℚ
  network_bytes_transmitted : ℚ
  memory_used : ℚ
  compute_host : Option String := none
  user_id : Option String := none
  instance_name : Option String := none
deriving DecidableEq, Repr

namespace ResourceInformation

/-- Method `ResourceInformation.__add__` with a `Number` right operand: every
dimension is shifted by the scalar, tags are kept from the left operand. -/
def addScalar (a : ResourceInformation) (c : ℚ) : ResourceInformation :=
  { cpu_time := a.cpu_time + c
    disk_bytes_read := a.disk_bytes_read + c
    disk_bytes_written := a.disk_bytes_written + c
    network_bytes_received := a.network_bytes_received + c
    network_bytes_transmitted := a.network_bytes_transmitted + c
    memory_used := a.memory_used + c
    compute_host := a.compute_host
    user_id := a.user_id
    instance_name := a.instance_name }

/-- Method `ResourceInformation.__add__` with a `ResourceInformation` right
operand: elementwise sum, tags from the left operand. -/
def add (a b : ResourceInformation) : ResourceInformation :=
  { cpu_time := a.cpu_time + b.cpu_time
    disk_bytes_read := a.disk_bytes_read + b.disk_bytes_read
    disk_bytes_written := a.disk_bytes_written + b.disk_bytes_written
    network_bytes_received := a.network_bytes_received + b.network_bytes_received
    network_bytes_transmitted :=
      a.network_bytes_transmitted + b.network_bytes_transmitted
    memory_used := a.memory_used + b.memory_used
    compute_host := a.compute_host
    user_id := a.user_id
    instance_name := a.instance_name }

/-- Method `ResourceInformation.__mul__` with a `Number` right operand. -/
def mulScalar (a : ResourceInformation) (c : ℚ) : ResourceInformation :=
  { cpu_time := a.cpu_time * c
    disk_bytes_read := a.disk_bytes_read * c
    disk_bytes_written := a.disk_bytes_written * c
    network_bytes_received := a.network_bytes_received * c
    network_bytes_transmitted := a.network_bytes_transmitted * c
    memory_used := a.memory_used * c
    compute_host := a.compute_host
    user_id := a.user_id
    instance_name := a.instance_name }

/-- Method `ResourceInformation.__mul__` with a `ResourceInformation` right
operand: elementwise product, tags from the left operand. -/
def mul (a b : ResourceInformation) : ResourceInformation :=
  { cpu_time := a.cpu_time * b.cpu_time
    disk_bytes_read := a.disk_bytes_read * b.disk_bytes_read
    disk_bytes_written := a.disk_bytes_written * b.disk_bytes_written
    network_bytes_received := a.network_bytes_received * b.network_bytes_received
    network_bytes_transmitted :=
      a.network_bytes_transmitted * b.network_bytes_transmitted
    memory_used := a.memory_used * b.memory_used
    compute_host := a.compute_host
    user_id := a.user_id
    instance_name := a.instance_name }

/-- Method `ResourceInformation.__div__` with a `Number` right operand.  A zero
divisor raises `ZeroDivisionError` in Python (`none` here); the class has
no sentinel handling. -/
def divScalar (a : ResourceInformation) (c : ℚ) : Option ResourceInformation :=
  if c = 0 then none
  else some
    { cpu_time := a.cpu_time / c
      disk_bytes_read := a.disk_bytes_read / c
      disk_bytes_written := a.disk_bytes_written / c
      network_bytes_received := a.network_bytes_received / c
      network_bytes_transmitted := a.network_bytes_transmitted / c
      memory_used := a.memory_used / c
      compute_host := a.compute_host
      user_id := a.user_id
      instance_name := a.instance_name }

/-- Method `ResourceInformation.__div__` with a `ResourceInformation` right
operand: elementwise quotient, tags from the left operand.  A zero in any
dimension of the divisor raises `ZeroDivisionError` (`none` here). -/
def div (a b : ResourceInformation) : Option ResourceInformation :=
  if b.cpu_time = 0 ∨ b.disk_bytes_read = 0 ∨ b.disk_bytes_written = 0 ∨
      b.network_bytes_received = 0 ∨ b.network_bytes_transmitted = 0 ∨
      b.memory_used = 0 then none
  else some
    { cpu_time := a.cpu_time / b.cpu_time
      disk_bytes_read := a.disk_bytes_read / b.disk_bytes_read
      disk_bytes_written := a.disk_bytes_written / b.disk_bytes_written
      network_bytes_received :=
        a.network_bytes_received / b.network_bytes_received
      network_bytes_transmitted :=
        a.network_bytes_transmitted / b.network_bytes_transmitted
      memory_used := a.memory_used / b.memory_used
      compute_host := a.compute_host
      user_id := a.user_id
      instance_name := a.instance_name }

/-- The class defines `__mul__`, `__add__` and `__div__` but neither
`__sub__` nor `__rsub__`, so `a - b` on two `ResourceInformation` objects
raises `TypeError`; modelled as the always-failing operation. -/
def sub (_a _b : ResourceInformation) : Option ResourceInformation :=
  none

end ResourceInformation

/-- Modelled from the spec: the elementwise subtraction that the spec's
`ResourceVector` supports (`(a + b) − b == a`, tags from the left
operand).  The source class has no `__sub__`; this spec-side definition
exists only to be compared with the source behaviour. -/
def riSubSpec (a b : ResourceInformation) : ResourceInformation :=
  { cpu_time := a.cpu_time - b.cpu_time
    disk_bytes_read := a.disk_bytes_read - b.disk_bytes_read
    disk_bytes_written := a.disk_bytes_written - b.disk_bytes_written
    network_bytes_received := a.network_bytes_received - b.network_bytes_received
    network_bytes_transmitted :=
      a.network_bytes_transmitted - b.network_bytes_transmitted
    memory_used := a.memory_used - b.memory_used
    compute_host := a.compute_host
    user_id := a.user_id
    instance_name := a.instance_name }

/-! ## Numpy floating-point values with special values

`GreedinessMetric._initialize_raw` divides by the raw supply vector with
`np.divide` and no zero guard, so the norm can contain `inf`, and the
later products `0 * inf` in `_greediness_raw` produce `nan`.  `NpF`
models a numpy float64 as an exact rational or one of the special values;
numpy's default error state only warns on these operations, it does not
raise. -/

/-- A numpy float64 value: an exact finite rational, or one of the IEEE
special values produced by division by zero and `0 * inf`. -/
inductive NpF where
  | fin : ℚ → NpF
  | inf : NpF
  | ninf : NpF
  | nan : NpF
deriving DecidableEq, Repr

namespace NpF

/-- IEEE addition on `NpF` (numpy `+`). -/
def add : NpF → NpF → NpF
  | nan, _ => nan
  | fin _, nan => nan
  | inf, nan => nan
  | ninf, nan => nan
  | fin a, fin b => fin (a + b)
  | fin _, inf => inf
  | fin _, ninf => ninf
  | inf, fin _ => inf
  | inf, inf => inf
  | inf, ninf => nan
  | ninf, fin _ => ninf
  | ninf, inf => nan
  | ninf, ninf => ninf

/-- IEEE multiplication on `NpF` (numpy `*`); in particular
`0 * inf = nan`. -/
def mul : NpF → NpF → NpF
  | nan, _ => nan
  | fin _, nan => nan
  | inf, nan => nan
  | ninf, nan => nan
  | fin a, fin b => fin (a * b)
  | fin a, inf => if 0 < a then inf else if a < 0 then ninf else nan
  | fin a, ninf => if 0 < a then ninf else if a < 0 then inf else nan
  | inf, fin b => if 0 < b then inf else if b < 0 then ninf else nan
  | ninf, fin b => if 0 < b then ninf else if b < 0 then inf else nan
  | inf, inf => inf
  | inf, ninf => ninf
  | ninf, inf => ninf
  | ninf, ninf => inf

/-- IEEE division on `NpF` (numpy `np.divide`); a positive finite value
divided by zero gives `inf`, `0 / 0` gives `nan`, and numpy only emits a
`RuntimeWarning` in these cases. -/
def div : NpF → NpF → NpF
  | nan, _ => nan
  | fin _, nan => nan
  | inf, nan => nan
  | ninf, nan => nan
  | fin a, fin b =>
      if b = 0 then (if 0 < a then inf else if a < 0 then ninf else nan)
      else fin (a / b)
  | fin _, inf => fin 0
  | fin _, ninf => fin 0
  | inf, fin b => if 0 ≤ b then inf else ninf
  | ninf, fin b => if 0 ≤ b then ninf else inf
  | inf, inf => nan
  | inf, ninf => nan
  | ninf, inf => nan
  | ninf, ninf => nan

end NpF

/-! ## The Greediness metric (`nova/fairness/metrics/greediness.py`)

The per-VM demand and endowment matrices are modelled as lists of rows,
each row a function `Fin 6 → ℚ` over the six resource dimensions. -/

/-- A six-dimensional resource row. -/
abbrev Vec6 := Fin 6 → ℚ

/-- Helper `gez` from `GreedinessMetric._greediness_raw`: keep positive entries,
zero out the rest. -/
def gez (a : ℚ) : ℚ := if 0 < a then a else 0

/-- Helper `lez` from `GreedinessMetric._greediness_raw`: keep negative entries,
zero out the rest. -/
def lez (a : ℚ) : ℚ := if a < 0 then a else 0

/-- Helper `duc` from `GreedinessMetric._greediness_raw`: clamp from below at
`-1`. -/
def duc (a : ℚ) : ℚ := if -1 < a then a else -1

/-- Helper `not_zero` from `GreedinessMetric._greediness_raw`: replace an exact
zero by `-1` (used on the ratio denominator only). -/
def notZero (a : ℚ) : ℚ := if a = 0 then -1 else a

/-- Column sum of a list of rows (numpy `np.sum(·, axis=0)`). -/
def colSum (rows : List Vec6) (k : Fin 6) : ℚ :=
  (rows.map (fun r => r k)).sum

/-- Sum of six `NpF` values (numpy `np.sum(·, axis=1)` on one row),
starting from the float accumulator `0`. -/
def npSum6 (f : Fin 6 → NpF) : NpF :=
  ((((((NpF.fin 0).add (f 0)).add (f 1)).add (f 2)).add (f 3)).add
    (f 4)).add (f 5)

/-- Constant `GreedinessMetric.floating_error`. -/
def floatingError : ℚ := 1 / 10 ^ 11

/-- Constant `GreedinessMetric.normalizer`. -/
def normalizer : ℚ := 1

/-- The global norm computed by `GreedinessMetric._initialize_raw`:
`np.divide(user_count * normalizer / (1.0 * len(supply)), supply)` with
`len(supply) = 6`.  There is no zero guard on `supply`: a zero component
makes numpy produce `inf` (for the positive numerator), not a `-1`
sentinel. -/
def globalNorm (supply : Vec6) (user_count : ℤ) : Fin 6 → NpF :=
  fun k =>
    NpF.div (NpF.fin ((user_count : ℚ) * normalizer / 6)) (NpF.fin (supply k))

/-- The preconditions asserted by `GreedinessMetric._initialize_raw`:
demands and endowments non-negative and of equal shape, and column sums
of the endowments at most `supply + floating_error`. -/
def initPreconds (supply : Vec6) (demands endowments : List Vec6) : Prop :=
  (∀ r ∈ demands, ∀ k : Fin 6, 0 ≤ r k) ∧
  endowments.length = demands.length ∧
  (∀ r ∈ endowments, ∀ k : Fin 6, 0 ≤ r k) ∧
  (∀ k : Fin 6, colSum endowments k ≤ supply k + floatingError)

instance (supply : Vec6) (demands endowments : List Vec6) :
    Decidable (initPreconds supply demands endowments) := by
  unfold initPreconds; infer_instance

/-- Method `GreedinessMetric._initialize_raw`: check the assertions (a failed
Python `assert` raises, modelled as `none`) and return the global norm. -/
def initializeRaw (supply : Vec6) (demands endowments : List Vec6)
    (user_count : ℤ) : Option (Fin 6 → NpF) :=
  if initPreconds supply demands endowments then
    some (globalNorm supply user_count)
  else none

/-- Method `GreedinessMetric._greediness_raw`: the per-VM heaviness list.  The
difference `demands - endowments`, its positive and negative parts, the
ratio against the `not_zero`-guarded negative column sum and the clamp
are all exact; the final products and row sums use `NpF` arithmetic
because `factor` (the global norm) can contain `inf`. -/
def greedinessRaw (endowments demands : List Vec6) (factor : Fin 6 → NpF)
    (discount : ℚ) : List NpF :=
  let diff : List Vec6 :=
    List.zipWith (fun d e => fun k => d k - e k) demands endowments
  let posDem : List Vec6 := diff.map (fun r => fun k => gez (r k))
  let negDem : List Vec6 := diff.map (fun r => fun k => lez (r k))
  let ratio : Fin 6 → ℚ :=
    fun k => colSum posDem k / notZero (colSum negDem k)
  List.zipWith
    (fun pr nr =>
      npSum6 (fun k =>
        NpF.mul (NpF.fin (pr k - discount * nr k * duc (ratio k)))
          (factor k)))
    posDem negDem

/-! ## Concrete Greediness scenarios -/

/-- Build a six-dimensional row from its entries. -/
def vec6 (a b c d e f : ℚ) : Vec6 := fun k =>
  match k with
  | ⟨0, _⟩ => a
  | ⟨1, _⟩ => b
  | ⟨2, _⟩ => c
  | ⟨3, _⟩ => d
  | ⟨4, _⟩ => e
  | ⟨5, _⟩ => f

@[simp]
theorem vec6_app_zero (a b c d e f : ℚ) : vec6 a b c d e f 0 = a := rfl

@[simp]
theorem vec6_app_one (a b c d e f : ℚ) : vec6 a b c d e f 1 = b := rfl

@[simp]
theorem vec6_app_two (a b c d e f : ℚ) : vec6 a b c d e f 2 = c := rfl

@[simp]
theorem vec6_app_three (a b c d e f : ℚ) : vec6 a b c d e f 3 = d := rfl

@[simp]
theorem vec6_app_four (a b c d e f : ℚ) : vec6 a b c d e f 4 = e := rfl

@[simp]
theorem vec6_app_five (a b c d e f : ℚ) : vec6 a b c d e f 5 = f := rfl

/-- Scenario S2 cloud supply: `S = (100, 0, 0, 0, 0, 0)`. -/
def s2Supply : Vec6 := vec6 100 0 0 0 0 0

/-- Scenario S2 demands: `D = [(90, 0, …), (10, 0, …)]`. -/
def s2Demands : List Vec6 := [vec6 90 0 0 0 0 0, vec6 10 0 0 0 0 0]

/-- Scenario S2 endowments: `E = [(50, 0, …), (50, 0, …)]`. -/
def s2Endowments : List Vec6 := [vec6 50 0 0 0 0 0, vec6 50 0 0 0 0 0]

/-- All-zero cloud supply (scenario S3). -/
def s3Supply : Vec6 := vec6 0 0 0 0 0 0

/-- A single all-zero demand/endowment row for the all-zero supply. -/
def s3Rows : List Vec6 := [vec6 0 0 0 0 0 0]

/-! ## Claim C1 -/

/-- The preconditions of `_initialize_raw` hold on scenario S2. -/
theorem s2_initPreconds : initPreconds s2Supply s2Demands s2Endowments := by
  refine ⟨?_, rfl, ?_, ?_⟩
  · intro r hr k
    simp only [s2Demands, List.mem_cons, List.not_mem_nil, or_false] at hr
    rcases hr with h | h <;>
    · subst h
      rcases k with ⟨n, hn⟩
      interval_cases n <;> norm_num [vec6]
  · intro r hr k
    simp only [s2Endowments, List.mem_cons, List.not_mem_nil, or_false] at hr
    rcases hr with h | h <;>
    · subst h
      rcases k with ⟨n, hn⟩
      interval_cases n <;> norm_num [vec6]
  · intro k
    rcases k with ⟨n, hn⟩
    interval_cases n <;>
      norm_num [colSum, s2Endowments, s2Supply, vec6, floatingError]

/-- On scenario S2 both computed heavinesses are `nan`: the CPU term of
the first VM is `40/600` and of the second `-40/600`, but the five
zero-supply dimensions contribute `0 * inf = nan` to each row sum. -/
theorem s2_heaviness_nan :
    greedinessRaw s2Endowments s2Demands (globalNorm s2Supply 1) 1 =
      [NpF.nan, NpF.nan] := by
  norm_num [greedinessRaw, s2Endowments, s2Demands, colSum, npSum6,
    globalNorm, s2Supply, normalizer, gez, lez, duc, notZero, vec6,
    NpF.mul, NpF.add, NpF.div]

/-- C1, counterexample: on scenario S2 (supply `(100,0,0,0,0,0)`, one
user, endowments `(50,…),(50,…)`, demands `(90,…),(10,…)`) the per-VM
heavinesses are not `40/600` and `-40/600` as claimed — the zero-supply
dimensions make the norm `inf` there and the products `0 * inf` turn both
row sums into `nan`. -/
theorem greediness_s2_counterexample :
    ¬(globalNorm s2Supply 1 0 = NpF.fin (1 / (6 * 100)) ∧
      greedinessRaw s2Endowments s2Demands (globalNorm s2Supply 1) 1 =
        [NpF.fin (40 / 600), NpF.fin (-(40 / 600))]) := by
  rintro ⟨-, hg⟩
  rw [s2_heaviness_nan] at hg
  simp at hg

/-- C1, amended: with normalizer 1 and discount 1 on scenario S2 the
assertions pass, the CPU norm is `norm[0] = 1/(6*100)`, every other norm
component is `inf` (its supply component is zero and there is no
sentinel), and both computed per-VM heavinesses are `nan` rather than
`±40/600`, because each row sum contains `0 * inf` terms. -/
theorem greediness_s2_amended :
    initializeRaw s2Supply s2Demands s2Endowments 1 =
      some (globalNorm s2Supply 1) ∧
    globalNorm s2Supply 1 0 = NpF.fin (1 / (6 * 100)) ∧
    globalNorm s2Supply 1 1 = NpF.inf ∧
    globalNorm s2Supply 1 2 = NpF.inf ∧
    globalNorm s2Supply 1 3 = NpF.inf ∧
    globalNorm s2Supply 1 4 = NpF.inf ∧
    globalNorm s2Supply 1 5 = NpF.inf ∧
    greedinessRaw s2Endowments s2Demands (globalNorm s2Supply 1) 1 =
      [NpF.nan, NpF.nan] := by
  refine ⟨?_, ?_, ?_, ?_, ?_, ?_, ?_, s2_heaviness_nan⟩
  · unfold initializeRaw
    rw [if_pos s2_initPreconds]
  all_goals norm_num [globalNorm, s2Supply, normalizer, NpF.div, vec6]

/-! ## Claim C2 -/

/-- The preconditions of `_initialize_raw` hold on the all-zero-supply
scenario S3. -/
theorem s3_initPreconds : initPreconds s3Supply s3Rows s3Rows := by
  refine ⟨?_, rfl, ?_, ?_⟩
  · intro r hr k
    simp only [s3Rows, List.mem_singleton] at hr
    subst hr
    rcases k with ⟨n, hn⟩
    interval_cases n <;> norm_num [vec6]
  · intro r hr k
    simp only [s3Rows, List.mem_singleton] at hr
    subst hr
    rcases k with ⟨n, hn⟩
    interval_cases n <;> norm_num [vec6]
  · intro k
    rcases k with ⟨n, hn⟩
    interval_cases n <;>
      norm_num [colSum, s3Rows, s3Supply, vec6, floatingError]

/-- C2, counterexample: on the all-zero supply the assertions pass and the
invocation returns, but the computed norm component is `inf` (numpy float
division of the positive numerator by zero), not the claimed sentinel
`-1`. -/
theorem norm_zero_sentinel_counterexample :
    initializeRaw s3Supply s3Rows s3Rows 1 = some (globalNorm s3Supply 1) ∧
    globalNorm s3Supply 1 0 = NpF.inf ∧
    globalNorm s3Supply 1 0 ≠ NpF.fin (-1) := by
  have h2 : globalNorm s3Supply 1 0 = NpF.inf := by
    norm_num [globalNorm, s3Supply, normalizer, NpF.div, vec6]
  refine ⟨?_, h2, ?_⟩
  · unfold initializeRaw
    rw [if_pos s3_initPreconds]
  · rw [h2]
    exact fun h => NpF.noConfusion h

/-- C2, amended: on every invocation of `_initialize_raw` whose asserted
preconditions hold and whose user count is at least one, the call returns
the global norm without raising, and every component whose supply entry is
zero comes out as `inf` — numpy float division by zero, which only warns —
rather than the claimed `-1` sentinel. -/
theorem norm_zero_supply_inf (supply : Vec6) (demands endowments : List Vec6)
    (u : ℤ) (k : Fin 6) (hpre : initPreconds supply demands endowments)
    (hk : supply k = 0) (hu : 1 ≤ u) :
    initializeRaw supply demands endowments u = some (globalNorm supply u) ∧
    globalNorm supply u k = NpF.inf := by
  constructor
  · unfold initializeRaw
    rw [if_pos hpre]
  · have hupos : (0 : ℚ) < (u : ℚ) * normalizer / 6 := by
      have h1 : (1 : ℚ) ≤ (u : ℚ) := by exact_mod_cast hu
      rw [normalizer]
      nlinarith
    unfold globalNorm
    rw [hk]
    simp [NpF.div, hupos]

/-- Witness for `norm_zero_supply_inf` at the all-zero supply with a
single all-zero demand/endowment row and one user. -/
theorem norm_zero_supply_inf_witness :
    initPreconds s3Supply s3Rows s3Rows ∧ s3Supply 0 = 0 ∧ (1 : ℤ) ≤ 1 ∧
    (initializeRaw s3Supply s3Rows s3Rows 1 = some (globalNorm s3Supply 1) ∧
      globalNorm s3Supply 1 0 = NpF.inf) :=
  ⟨s3_initPreconds, rfl, le_refl 1,
    norm_zero_supply_inf s3Supply s3Rows s3Rows 1 0 s3_initPreconds rfl
      (le_refl 1)⟩

/-! ## Claims C8 and C9: the ResourceInformation algebra -/

/-- Modelled from the spec: elementwise division in which a zero divisor
in a dimension yields the sentinel `-1` in that dimension (spec §3, §4.3
`notZero`); the source `__div__` has no such handling and raises.  This
spec-side definition exists only to be compared with the source
behaviour. -/
def riDivSpec (a b : ResourceInformation) : ResourceInformation :=
  { cpu_time := if b.cpu_time = 0 then -1 else a.cpu_time / b.cpu_time
    disk_bytes_read :=
      if b.disk_bytes_read = 0 then -1 else a.disk_bytes_read / b.disk_bytes_read
    disk_bytes_written :=
      if b.disk_bytes_written = 0 then -1
      else a.disk_bytes_written / b.disk_bytes_written
    network_bytes_received :=
      if b.network_bytes_received = 0 then -1
      else a.network_bytes_received / b.network_bytes_received
    network_bytes_transmitted :=
      if b.network_bytes_transmitted = 0 then -1
      else a.network_bytes_transmitted / b.network_bytes_transmitted
    memory_used := if b.memory_used = 0 then -1 else a.memory_used / b.memory_used
    compute_host := a.compute_host
    user_id := a.user_id
    instance_name := a.instance_name }

/-- A concrete tagged vector used in the algebra counterexamples. -/
def riExA : ResourceInformation :=
  { cpu_time := 1, disk_bytes_read := 2, disk_bytes_written := 3,
    network_bytes_received := 4, network_bytes_transmitted := 5,
    memory_used := 6, compute_host := some "hostA", user_id := some "u1",
    instance_name := some "vm1" }

/-- A second concrete vector used in the algebra counterexamples. -/
def riExB : ResourceInformation :=
  { cpu_time := 7, disk_bytes_read := 8, disk_bytes_written := 9,
    network_bytes_received := 10, network_bytes_transmitted := 11,
    memory_used := 12 }

/-- A concrete divisor with a zero CPU dimension. -/
def riDivZeroB : ResourceInformation :=
  { cpu_time := 0, disk_bytes_read := 2, disk_bytes_written := 2,
    network_bytes_received := 2, network_bytes_transmitted := 2,
    memory_used := 2 }

/-- C8, counterexample: subtraction is not supported on
`ResourceInformation` — the class defines no `__sub__`, so `(a + b) - b`
raises `TypeError` instead of returning `a`. -/
theorem ri_sub_counterexample :
    ResourceInformation.sub (riExA.add riExB) riExB = none ∧
    ResourceInformation.sub (riExA.add riExB) riExB ≠ some riExA := by
  refine ⟨rfl, ?_⟩
  intro h
  simp [ResourceInformation.sub] at h

/-- C8, amended: the minus operator on two `ResourceInformation` objects
always raises `TypeError` (no `__sub__`/`__rsub__` is defined — the class
offers no subtraction at all); what does hold of the source's `__add__`
is that it is elementwise with tags from the left operand, so at the
level of field values subtracting `b`'s field from the corresponding
field of `a + b` recovers `a`'s field exactly in all six dimensions, and
`a + b` carries `a`'s tags. -/
theorem ri_sub_amended :
    (∀ a b : ResourceInformation, ResourceInformation.sub a b = none) ∧
    (∀ a b : ResourceInformation,
      (a.add b).cpu_time - b.cpu_time = a.cpu_time ∧
      (a.add b).disk_bytes_read - b.disk_bytes_read = a.disk_bytes_read ∧
      (a.add b).disk_bytes_written - b.disk_bytes_written =
        a.disk_bytes_written ∧
      (a.add b).network_bytes_received - b.network_bytes_received =
        a.network_bytes_received ∧
      (a.add b).network_bytes_transmitted - b.network_bytes_transmitted =
        a.network_bytes_transmitted ∧
      (a.add b).memory_used - b.memory_used = a.memory_used ∧
      (a.add b).compute_host = a.compute_host ∧
      (a.add b).user_id = a.user_id ∧
      (a.add b).instance_name = a.instance_name) := by
  refine ⟨fun a b => rfl, fun a b => ?_⟩
  refine ⟨?_, ?_, ?_, ?_, ?_, ?_, rfl, rfl, rfl⟩ <;>
    simp [ResourceInformation.add]

/-- C9, counterexample: dividing by a vector with a zero CPU dimension
raises `ZeroDivisionError` — the result is not the spec's sentinel vector
with `-1` in the zero dimension. -/
theorem ri_div_zero_counterexample :
    ResourceInformation.div riExA riDivZeroB = none ∧
    ResourceInformation.div riExA riDivZeroB ≠
      some (riDivSpec riExA riDivZeroB) := by
  have hnone : ResourceInformation.div riExA riDivZeroB = none := by
    norm_num [ResourceInformation.div, riDivZeroB]
  refine ⟨hnone, ?_⟩
  rw [hnone]
  exact fun h => Option.noConfusion h

/-- C9, amended: `__div__` raises `ZeroDivisionError` exactly when some
dimension of the divisor (or the scalar divisor) is zero — there is no
`-1` sentinel — and succeeds otherwise. -/
theorem ri_div_amended (a b : ResourceInformation) (c : ℚ) :
    (ResourceInformation.div a b = none ↔
      b.cpu_time = 0 ∨ b.disk_bytes_read = 0 ∨ b.disk_bytes_written = 0 ∨
      b.network_bytes_received = 0 ∨ b.network_bytes_transmitted = 0 ∨
      b.memory_used = 0) ∧
    (ResourceInformation.divScalar a c = none ↔ c = 0) := by
  constructor
  · unfold ResourceInformation.div
    split_ifs with h
    · simp [h]
    · simp [h]
  · unfold ResourceInformation.divScalar
    split_ifs with h
    · simp [h]
    · simp [h]

/-! ## Association lists: the model of Python dicts

Lookup returns the first binding; replacement is in place; a new key is
appended, matching the insertion-order discipline of Python dicts. -/

/-- Dict lookup (`d[k]` / `k in d`). -/
def alGet {κ α : Type} [DecidableEq κ] : List (κ × α) → κ → Option α
  | [], _ => none
  | (k', v) :: rest, k => if k' = k then some v else alGet rest k

/-- Dict in-place update of an existing key (`d[k] = v` when `k in d`):
the binding is replaced where it stands. -/
def alSet {κ α : Type} [DecidableEq κ] : List (κ × α) → κ → α → List (κ × α)
  | [], _, _ => []
  | (k', v') :: rest, k, v =>
      if k' = k then (k, v) :: alSet rest k v else (k', v') :: alSet rest k v

/-! ## The cloud-supply registry (`nova/fairness/cloud_supply.py`) -/

/-- Embedding of `CloudSupply.HostSupply`: the per-host static capacity
record.  The boot time is kept abstract (as an optional number of seconds)
because no claim depends on it; `supply_created_at` is the wall-clock
creation stamp that orders replacements. -/
structure HostSupply where
  compute_host : String
  host_boottime : Option ℚ := none
  cpu_cores_weighted : ℚ
  disk_speeds : ℚ
  network_throughput : ℚ
  memory_used : ℚ
  supply_created_at : ℚ
deriving DecidableEq, Repr

/-- The `_remote_supplies` dict: host name to its supply record. -/
abbrev Registry := List (String × HostSupply)

/-- Method `CloudSupply.add_supply` on the registry: insert an unknown
host, and replace a known host's record only when the incoming
`supply_created_at` is strictly newer (the boot-time string coercion of
the source is a no-op here because boot times are already parsed). -/
def addSupplyReg (reg : Registry) (s : HostSupply) : Registry :=
  match alGet reg s.compute_host with
  | none => reg ++ [(s.compute_host, s)]
  | some old =>
      if old.supply_created_at < s.supply_created_at then
        alSet reg s.compute_host s
      else reg

/-- Method `CloudSupply._all_host_supplies_collected`: every live member
has a registry entry.  The membership oracle is modelled as the list
`members` (the source returns `False` when the oracle is unavailable). -/
def allSuppliesCollected (members : List String) (reg : Registry) : Bool :=
  members.all (fun h => (alGet reg h).isSome)

/-- State of a `CloudSupply` object: the local host name, the registry and
the readiness flag. -/
structure CSState where
  host : String
  registry : Registry
  ready : Bool
deriving DecidableEq, Repr

/-- Method `CloudSupply.check_readiness`. -/
def applyCheckReadiness (members : List String) (st : CSState) : CSState :=
  { st with ready := allSuppliesCollected members st.registry }

/-- Method `CloudSupply.add_supply` on the full state: registry update
followed by `check_readiness`. -/
def applyAddSupply (members : List String) (st : CSState) (s : HostSupply) :
    CSState :=
  let reg := addSupplyReg st.registry s
  { st with registry := reg, ready := allSuppliesCollected members reg }

/-- Construction of a `CloudSupply` object (`__init__`): the registry
starts empty and the local supply — whose `compute_host` is the local
host — is immediately added via `add_supply`. -/
def initState (members : List String) (ls : HostSupply) : CSState :=
  applyAddSupply members ⟨ls.compute_host, [], false⟩ ls

/-- Method `CloudSupply._filter_offline_hosts`: drop every entry whose
host is neither a live member nor the local host. -/
def filterOffline (members : List String) (host : String) (reg : Registry) :
    Registry :=
  reg.filter (fun p => decide (p.1 ∈ members ∨ p.1 = host))

/-- Python `int()` truncation toward zero of a rational. -/
def truncQ (q : ℚ) : ℤ :=
  if q < 0 then ⌈q⌉ else ⌊q⌋

/-- One loop iteration of `CloudSupply.get_cloud_supply`: add one host's
capacities to the accumulator — the five rate dimensions are multiplied by
the interval and truncated by `int()`, while `memory_used` is added
as-is. -/
def supplyAccum (interval : ℚ) (acc : ResourceInformation) (s : HostSupply) :
    ResourceInformation :=
  { acc with
    cpu_time := acc.cpu_time + (truncQ (s.cpu_cores_weighted * interval) : ℚ)
    disk_bytes_read :=
      acc.disk_bytes_read + (truncQ (s.disk_speeds * interval) : ℚ)
    disk_bytes_written :=
      acc.disk_bytes_written + (truncQ (s.disk_speeds * interval) : ℚ)
    network_bytes_received :=
      acc.network_bytes_received + (truncQ (s.network_throughput * interval) : ℚ)
    network_bytes_transmitted :=
      acc.network_bytes_transmitted +
        (truncQ (s.network_throughput * interval) : ℚ)
    memory_used := acc.memory_used + s.memory_used }

/-- Method `CloudSupply.get_cloud_supply`: filter offline hosts (a state
mutation), then fold the remaining supplies into a zero vector tagged with
the local host. -/
def getCloudSupply (members : List String) (st : CSState) (interval : ℚ) :
    CSState × ResourceInformation :=
  let reg := filterOffline members st.host st.registry
  (⟨st.host, reg, st.ready⟩,
    reg.foldl (fun acc p => supplyAccum interval acc p.2)
      { cpu_time := 0, disk_bytes_read := 0, disk_bytes_written := 0,
        network_bytes_received := 0, network_bytes_transmitted := 0,
        memory_used := 0, compute_host := some st.host })

/-- Modelled from the spec: the cloud supply as claim C7 words it — the
sum of `capacity × interval` in each of the six dimensions, memory
included.  The source multiplies only the five rate dimensions by the
interval.  Used only for comparison. -/
def getCloudSupplyClaimC7 (members : List String) (st : CSState)
    (interval : ℚ) : ResourceInformation :=
  let reg := filterOffline members st.host st.registry
  reg.foldl
    (fun acc p =>
      { supplyAccum interval acc p.2 with
        memory_used :=
          acc.memory_used + (truncQ (p.2.memory_used * interval) : ℚ) })
    { cpu_time := 0, disk_bytes_read := 0, disk_bytes_written := 0,
      network_bytes_received := 0, network_bytes_transmitted := 0,
      memory_used := 0, compute_host := some st.host }

/-- The states a `CloudSupply` object can reach: constructed by
`__init__`, then any interleaving of `add_supply`, `check_readiness` and
the filtering performed by `get_cloud_supply`, under arbitrary membership
views. -/
inductive CSReach : CSState → Prop where
  | init (members : List String) (ls : HostSupply) :
      CSReach (initState members ls)
  | addS (members : List String) (s : HostSupply) {st : CSState} :
      CSReach st → CSReach (applyAddSupply members st s)
  | checkR (members : List String) {st : CSState} :
      CSReach st → CSReach (applyCheckReadiness members st)
  | query (members : List String) (interval : ℚ) {st : CSState} :
      CSReach st → CSReach (getCloudSupply members st interval).1

/-- A successful dict lookup means the binding is in the list. -/
theorem alGet_mem {κ α : Type} [DecidableEq κ] {l : List (κ × α)} {k : κ}
    {v : α} (h : alGet l k = some v) : (k, v) ∈ l := by
  induction l with
  | nil => simp [alGet] at h
  | cons p rest ih =>
    rcases p with ⟨k', v'⟩
    by_cases hk : k' = k
    · subst hk
      simp [alGet] at h
      simp [h]
    · simp [alGet, hk] at h
      exact List.mem_cons_of_mem _ (ih h)

/-- Appending entries does not disturb a successful lookup. -/
theorem alGet_append_left {κ α : Type} [DecidableEq κ] {l : List (κ × α)}
    {k : κ} {v : α} (l2 : List (κ × α)) (h : alGet l k = some v) :
    alGet (l ++ l2) k = some v := by
  induction l with
  | nil => simp [alGet] at h
  | cons p rest ih =>
    rcases p with ⟨k', v'⟩
    by_cases hk : k' = k
    · subst hk
      simp [alGet] at h ⊢
      exact h
    · simp [alGet, hk] at h ⊢
      exact ih h

/-- Lookup falls through to the appended entries when the key is absent. -/
theorem alGet_append_none {κ α : Type} [DecidableEq κ] {l : List (κ × α)}
    {k : κ} (l2 : List (κ × α)) (h : alGet l k = none) :
    alGet (l ++ l2) k = alGet l2 k := by
  induction l with
  | nil => simp
  | cons p rest ih =>
    rcases p with ⟨k', v'⟩
    by_cases hk : k' = k
    · simp [alGet, hk] at h
    · simp [alGet, hk] at h ⊢
      exact ih h

/-- In-place update of a present key makes lookup return the new value. -/
theorem alGet_alSet_self {κ α : Type} [DecidableEq κ] {l : List (κ × α)}
    {k : κ} {w : α} (v : α) (h : alGet l k = some w) :
    alGet (alSet l k v) k = some v := by
  induction l with
  | nil => simp [alGet] at h
  | cons p rest ih =>
    rcases p with ⟨k', v'⟩
    by_cases hk : k' = k
    · subst hk
      simp [alGet, alSet]
    · simp [alGet, alSet, hk] at h ⊢
      exact ih h

/-- In-place update leaves other keys untouched. -/
theorem alGet_alSet_ne {κ α : Type} [DecidableEq κ] (l : List (κ × α))
    {k k' : κ} (v : α) (h : k' ≠ k) :
    alGet (alSet l k v) k' = alGet l k' := by
  induction l with
  | nil => simp [alSet]
  | cons p rest ih =>
    rcases p with ⟨k0, v0⟩
    by_cases hk : k0 = k
    · subst hk
      simp [alGet, alSet, Ne.symm h, ih]
    · by_cases hk' : k0 = k'
      · subst hk'
        simp [alGet, alSet, hk, ih]
      · simp [alGet, alSet, hk, hk', ih]

/-- Effect of `add_supply` on the entry of any already-present host `h`:
the entry becomes the incoming supply exactly when the incoming record is
for `h` and carries a strictly newer `supply_created_at`; otherwise it is
unchanged. -/
theorem addSupplyReg_get {reg : Registry} {h : String} {old : HostSupply}
    (s : HostSupply) (hold : alGet reg h = some old) :
    alGet (addSupplyReg reg s) h =
      some (if s.compute_host = h ∧
              old.supply_created_at < s.supply_created_at
            then s else old) := by
  unfold addSupplyReg
  by_cases hh : s.compute_host = h
  · subst hh
    rw [hold]
    dsimp only
    by_cases hlt : old.supply_created_at < s.supply_created_at
    · rw [if_pos hlt, if_pos ⟨rfl, hlt⟩]
      exact alGet_alSet_self s hold
    · rw [if_neg hlt, hold, if_neg (fun hc => hlt hc.2)]
  · cases hcase : alGet reg s.compute_host with
    | none =>
      dsimp only
      rw [alGet_append_left _ hold, if_neg (fun hc => hh hc.1)]
    | some old2 =>
      dsimp only
      by_cases hlt : old2.supply_created_at < s.supply_created_at
      · rw [if_pos hlt, alGet_alSet_ne _ _ (fun hne => hh hne.symm), hold,
          if_neg (fun hc => hh hc.1)]
      · rw [if_neg hlt, hold, if_neg (fun hc => hh hc.1)]

/-- Method `add_supply` never removes a present key. -/
theorem addSupplyReg_isSome {reg : Registry} {k : String} (s : HostSupply)
    (h : (alGet reg k).isSome) : (alGet (addSupplyReg reg s) k).isSome := by
  cases hold : alGet reg k with
  | none => rw [hold] at h; simp at h
  | some old => rw [addSupplyReg_get s hold]; simp

/-- Method `add_supply` leaves the key sequence unchanged or appends the
incoming host; it never deletes a key. -/
theorem addSupplyReg_keys (reg : Registry) (s : HostSupply) :
    (addSupplyReg reg s).map Prod.fst = reg.map Prod.fst ∨
    (addSupplyReg reg s).map Prod.fst =
      reg.map Prod.fst ++ [s.compute_host] := by
  unfold addSupplyReg
  cases alGet reg s.compute_host with
  | none => right; simp
  | some old =>
    dsimp only
    split_ifs with hlt
    · left
      induction reg with
      | nil => simp [alSet]
      | cons p rest ih =>
        rcases p with ⟨k0, v0⟩
        by_cases hk : k0 = s.compute_host
        · subst hk
          simp [alSet, ih]
        · simp [alSet, hk, ih]
    · left; rfl

/-- Lookup after the offline-host filter: entries survive exactly when
their host is a live member or the local host. -/
theorem alGet_filterOffline (members : List String) (host : String)
    (reg : Registry) (k : String) :
    alGet (filterOffline members host reg) k =
      if k ∈ members ∨ k = host then alGet reg k else none := by
  induction reg with
  | nil => simp [filterOffline, alGet]
  | cons p rest ih =>
    rcases p with ⟨k0, v0⟩
    by_cases hp : k0 ∈ members ∨ k0 = host
    · by_cases hk : k0 = k
      · subst hk
        simp only [filterOffline, List.filter_cons] at ih ⊢
        rw [if_pos (by simpa using hp)]
        simp [alGet, hp]
      · simp only [filterOffline, List.filter_cons] at ih ⊢
        rw [if_pos (by simpa using hp)]
        simp only [alGet, if_neg hk]
        exact ih
    · by_cases hk : k0 = k
      · subst hk
        simp only [filterOffline, List.filter_cons] at ih ⊢
        rw [if_neg (by simpa using hp)]
        rw [ih, if_neg (by exact fun hc => hp hc)]
        simp [alGet, hp]
      · simp only [filterOffline, List.filter_cons] at ih ⊢
        rw [if_neg (by simpa using hp)]
        rw [ih]
        simp [alGet, hk]

/-- Characterization of the `get_cloud_supply` accumulation loop: each of
the five rate dimensions collects the truncated products
`int(capacity * interval)`, while `memory_used` collects the raw
capacities, and the tags of the accumulator are preserved. -/
theorem foldl_supplyAccum (interval : ℚ) (l : Registry)
    (acc : ResourceInformation) :
    l.foldl (fun a p => supplyAccum interval a p.2) acc =
      { cpu_time := acc.cpu_time +
          (l.map fun p =>
            ((truncQ (p.2.cpu_cores_weighted * interval) : ℤ) : ℚ)).sum
        disk_bytes_read := acc.disk_bytes_read +
          (l.map fun p => ((truncQ (p.2.disk_speeds * interval) : ℤ) : ℚ)).sum
        disk_bytes_written := acc.disk_bytes_written +
          (l.map fun p => ((truncQ (p.2.disk_speeds * interval) : ℤ) : ℚ)).sum
        network_bytes_received := acc.network_bytes_received +
          (l.map fun p =>
            ((truncQ (p.2.network_throughput * interval) : ℤ) : ℚ)).sum
        network_bytes_transmitted := acc.network_bytes_transmitted +
          (l.map fun p =>
            ((truncQ (p.2.network_throughput * interval) : ℤ) : ℚ)).sum
        memory_used := acc.memory_used + (l.map fun p => p.2.memory_used).sum
        compute_host := acc.compute_host
        user_id := acc.user_id
        instance_name := acc.instance_name } := by
  induction l generalizing acc with
  | nil => simp
  | cons p rest ih =>
    rw [List.foldl_cons, ih]
    simp only [supplyAccum, List.map_cons, List.sum_cons,
      ResourceInformation.mk.injEq]
    refine ⟨by ring, by ring, by ring, by ring, by ring, by ring, trivial,
      trivial, trivial⟩

/-! ## Claim C5 -/

/-- Folding any sequence of incoming supplies over the registry never
decreases the stored creation timestamp of a present host. -/
theorem addSupplyReg_foldl_monotone (ss : List HostSupply) (reg : Registry)
    (h : String) (old : HostSupply) (hold : alGet reg h = some old) :
    ∃ new, alGet (ss.foldl addSupplyReg reg) h = some new ∧
      old.supply_created_at ≤ new.supply_created_at := by
  induction ss generalizing reg old with
  | nil => exact ⟨old, hold, le_refl _⟩
  | cons s rest ih =>
    have hstep := addSupplyReg_get s hold
    by_cases hc : s.compute_host = h ∧
        old.supply_created_at < s.supply_created_at
    · rw [if_pos hc] at hstep
      obtain ⟨new, hn, hle⟩ := ih (addSupplyReg reg s) s hstep
      exact ⟨new, by simpa using hn, le_trans (le_of_lt hc.2) hle⟩
    · rw [if_neg hc] at hstep
      obtain ⟨new, hn, hle⟩ := ih (addSupplyReg reg s) old hstep
      exact ⟨new, by simpa using hn, hle⟩

/-- C5: for every host already present in the registry, any sequence of
`add_supply` calls keeps an entry for it whose `supply_created_at` never
decreases; a single incoming supply replaces the entry exactly when it is
for that host and strictly newer, and is silently dropped otherwise. -/
theorem supply_created_at_monotone (reg : Registry) (h : String)
    (old : HostSupply) (hold : alGet reg h = some old) :
    (∀ ss : List HostSupply, ∃ new,
        alGet (ss.foldl addSupplyReg reg) h = some new ∧
        old.supply_created_at ≤ new.supply_created_at) ∧
    (∀ s : HostSupply, alGet (addSupplyReg reg s) h =
        some (if s.compute_host = h ∧
                old.supply_created_at < s.supply_created_at
              then s else old)) :=
  ⟨fun ss => addSupplyReg_foldl_monotone ss reg h old hold,
   fun s => addSupplyReg_get s hold⟩

/-- Scenario S4: the first supply for host `h`, created at time 100. -/
def s4First : HostSupply :=
  { compute_host := "h", cpu_cores_weighted := 4, disk_speeds := 3,
    network_throughput := 2, memory_used := 1, supply_created_at := 100 }

/-- Scenario S4: the second supply for host `h`, created at time 99. -/
def s4Second : HostSupply :=
  { compute_host := "h", cpu_cores_weighted := 5, disk_speeds := 6,
    network_throughput := 7, memory_used := 8, supply_created_at := 99 }

/-- Scenario S4: the registry after the timestamp-100 supply arrived. -/
def s4Registry : Registry := addSupplyReg [] s4First

/-- Witness for `supply_created_at_monotone` on scenario S4: host `h` is
present with the timestamp-100 supply, and applying the theorem at the
timestamp-99 supply shows it is dropped. -/
theorem supply_created_at_monotone_witness :
    alGet s4Registry "h" = some s4First ∧
    ((∀ ss : List HostSupply, ∃ new,
        alGet (ss.foldl addSupplyReg s4Registry) "h" = some new ∧
        s4First.supply_created_at ≤ new.supply_created_at) ∧
     (∀ s : HostSupply, alGet (addSupplyReg s4Registry s) "h" =
        some (if s.compute_host = "h" ∧
                s4First.supply_created_at < s.supply_created_at
              then s else s4First))) :=
  ⟨by simp [s4Registry, addSupplyReg, alGet, s4First],
   supply_created_at_monotone s4Registry "h" s4First
     (by simp [s4Registry, addSupplyReg, alGet, s4First])⟩

/-! ## Claim C6 -/

/-- A local supply for host `h0` used in the purge counterexample. -/
def exLocal : HostSupply :=
  { compute_host := "h0", cpu_cores_weighted := 1, disk_speeds := 1,
    network_throughput := 1, memory_used := 1, supply_created_at := 0 }

/-- A supply from a host `x` that is not a live member. -/
def exForeign : HostSupply :=
  { compute_host := "x", cpu_cores_weighted := 2, disk_speeds := 2,
    network_throughput := 2, memory_used := 2, supply_created_at := 1 }

/-- C6, counterexample: with live members `{h0}`, after `add_supply` of a
supply from the non-member host `x`, the registry still holds the entry
for `x` — neither `add_supply` nor its embedded `check_readiness` purges
anything, so the key set is not a subset of the live members. -/
theorem registry_purge_counterexample :
    alGet (applyAddSupply ["h0"] (initState ["h0"] exLocal)
        exForeign).registry "x" = some exForeign ∧
    "x" ∉ (["h0"] : List String) := by
  constructor
  · simp [applyAddSupply, initState, addSupplyReg, alGet,
      allSuppliesCollected, exLocal, exForeign]
  · simp

/-- C6, amended: purging happens only inside `_filter_offline_hosts`
(invoked by `get_cloud_supply`), where an entry survives exactly when its
host is a live member or the local host; `check_readiness` leaves the
registry untouched, and `add_supply` never removes a key — it keeps the
key sequence or appends the incoming host. -/
theorem registry_purge_amended (members : List String) (host h : String)
    (reg : Registry) (st : CSState) (s : HostSupply) :
    ((alGet (filterOffline members host reg) h).isSome ↔
      (alGet reg h).isSome ∧ (h ∈ members ∨ h = host)) ∧
    (applyCheckReadiness members st).registry = st.registry ∧
    ((addSupplyReg reg s).map Prod.fst = reg.map Prod.fst ∨
      (addSupplyReg reg s).map Prod.fst =
        reg.map Prod.fst ++ [s.compute_host]) := by
  refine ⟨?_, rfl, addSupplyReg_keys reg s⟩
  rw [alGet_filterOffline]
  by_cases hc : h ∈ members ∨ h = host
  · simp [hc]
  · simp [hc]

/-! ## Claim C7 -/

/-- C7, amended: `get_cloud_supply` returns, for the five rate dimensions,
the sum of `int(capacity × interval)` over the entries surviving the
offline filter, but for `memory_used` the plain sum of the stored memory
capacities — the interval is not applied to memory; the result is tagged
with the local host. -/
theorem cloud_supply_dims (members : List String) (st : CSState)
    (interval : ℚ) :
    (getCloudSupply members st interval).2 =
      { cpu_time := ((filterOffline members st.host st.registry).map
          fun p => ((truncQ (p.2.cpu_cores_weighted * interval) : ℤ) : ℚ)).sum
        disk_bytes_read := ((filterOffline members st.host st.registry).map
          fun p => ((truncQ (p.2.disk_speeds * interval) : ℤ) : ℚ)).sum
        disk_bytes_written := ((filterOffline members st.host st.registry).map
          fun p => ((truncQ (p.2.disk_speeds * interval) : ℤ) : ℚ)).sum
        network_bytes_received :=
          ((filterOffline members st.host st.registry).map
            fun p => ((truncQ (p.2.network_throughput * interval) : ℤ) : ℚ)).sum
        network_bytes_transmitted :=
          ((filterOffline members st.host st.registry).map
            fun p => ((truncQ (p.2.network_throughput * interval) : ℤ) : ℚ)).sum
        memory_used := ((filterOffline members st.host st.registry).map
          fun p => p.2.memory_used).sum
        compute_host := some st.host } := by
  simp only [getCloudSupply]
  rw [foldl_supplyAccum]
  simp

/-- The single-host registry state for the memory counterexample: the
only supply has memory capacity 5 and zero rate capacities. -/
def exC7Host : HostSupply :=
  { compute_host := "a", cpu_cores_weighted := 0, disk_speeds := 0,
    network_throughput := 0, memory_used := 5, supply_created_at := 0 }

/-- State holding only the supply of host `a`. -/
def exC7State : CSState := ⟨"a", [("a", exC7Host)], true⟩

/-- C7, counterexample: with one live supply of memory capacity 5 and
interval 2, `get_cloud_supply` yields memory 5 — the code adds
`supply.memory_used` without multiplying by the interval — while the
claimed all-six-dimensions product would yield 10. -/
theorem cloud_supply_memory_counterexample :
    (getCloudSupply ["a"] exC7State 2).2.memory_used = 5 ∧
    (getCloudSupplyClaimC7 ["a"] exC7State 2).memory_used = 10 ∧
    (getCloudSupply ["a"] exC7State 2).2 ≠
      getCloudSupplyClaimC7 ["a"] exC7State 2 := by
  have hmem : (getCloudSupply ["a"] exC7State 2).2.memory_used = 5 := by
    norm_num [getCloudSupply, filterOffline, supplyAccum, truncQ,
      exC7State, exC7Host]
  have hclaim : (getCloudSupplyClaimC7 ["a"] exC7State 2).memory_used = 10 := by
    norm_num [getCloudSupplyClaimC7, filterOffline, supplyAccum, truncQ,
      exC7State, exC7Host]
  refine ⟨hmem, hclaim, fun h => ?_⟩
  have hc := congrArg ResourceInformation.memory_used h
  rw [hmem, hclaim] at hc
  norm_num at hc

/-! ## Claim C10 -/

/-- In every reachable `CloudSupply` state the registry holds an entry
under the local host's name: it is inserted at construction, `add_supply`
never deletes, `check_readiness` does not touch the registry, and the
offline filter spares the local host. -/
theorem reach_local_present {st : CSState} (h : CSReach st) :
    (alGet st.registry st.host).isSome := by
  induction h with
  | init members ls =>
    simp [initState, applyAddSupply, addSupplyReg, alGet]
  | addS members s _ ih =>
    exact addSupplyReg_isSome s ih
  | checkR members _ ih =>
    exact ih
  | query members interval _ ih =>
    simp only [getCloudSupply]
    rw [alGet_filterOffline]
    simpa using ih

/-- Removal of the first occurrence of an element from a list. -/
def removeEntry {α : Type} [DecidableEq α] : List α → α → List α
  | [], _ => []
  | p :: rest, q => if p = q then rest else p :: removeEntry rest q

/-- A list is a permutation of any of its members consed onto the list
with that occurrence removed. -/
theorem perm_removeEntry {α : Type} [DecidableEq α] {l : List α} {q : α}
    (h : q ∈ l) : l.Perm (q :: removeEntry l q) := by
  induction l with
  | nil => simp at h
  | cons p rest ih =>
    by_cases hpq : p = q
    · subst hpq
      simp [removeEntry]
    · have hq : q ∈ rest := by
        rcases List.mem_cons.mp h with h1 | h1
        · exact absurd h1.symm hpq
        · exact h1
      simp only [removeEntry, if_neg hpq]
      exact ((ih hq).cons p).trans (List.Perm.swap q p _)

/-- Summing a mapped list decomposes at any member: the member's
contribution plus the sum over the list with that occurrence removed. -/
theorem sum_map_removeEntry {α β : Type} [DecidableEq α] [AddCommMonoid β]
    (f : α → β) {l : List α} {a : α} (h : a ∈ l) :
    (l.map f).sum = f a + ((removeEntry l a).map f).sum := by
  have hp := perm_removeEntry h
  calc (l.map f).sum = ((a :: removeEntry l a).map f).sum :=
        List.Perm.sum_eq (hp.map f)
    _ = f a + ((removeEntry l a).map f).sum := by simp

/-- C10: in every reachable `CloudSupply` state the local host's supply
`s` is present, survives the offline filter of `get_cloud_supply`, and
every dimension of the returned cloud supply is the local host's own
contribution plus the remaining hosts' contributions. -/
theorem cloud_supply_includes_local (members : List String) (interval : ℚ)
    {st : CSState} (hre : CSReach st) :
    ∃ s : HostSupply,
      alGet st.registry st.host = some s ∧
      alGet (getCloudSupply members st interval).1.registry st.host = some s ∧
      (getCloudSupply members st interval).2.cpu_time =
        (truncQ (s.cpu_cores_weighted * interval) : ℚ) +
          ((removeEntry (filterOffline members st.host st.registry) (st.host, s)).map
            fun p =>
              ((truncQ (p.2.cpu_cores_weighted * interval) : ℤ) : ℚ)).sum ∧
      (getCloudSupply members st interval).2.disk_bytes_read =
        (truncQ (s.disk_speeds * interval) : ℚ) +
          ((removeEntry (filterOffline members st.host st.registry) (st.host, s)).map
            fun p => ((truncQ (p.2.disk_speeds * interval) : ℤ) : ℚ)).sum ∧
      (getCloudSupply members st interval).2.disk_bytes_written =
        (truncQ (s.disk_speeds * interval) : ℚ) +
          ((removeEntry (filterOffline members st.host st.registry) (st.host, s)).map
            fun p => ((truncQ (p.2.disk_speeds * interval) : ℤ) : ℚ)).sum ∧
      (getCloudSupply members st interval).2.network_bytes_received =
        (truncQ (s.network_throughput * interval) : ℚ) +
          ((removeEntry (filterOffline members st.host st.registry) (st.host, s)).map
            fun p =>
              ((truncQ (p.2.network_throughput * interval) : ℤ) : ℚ)).sum ∧
      (getCloudSupply members st interval).2.network_bytes_transmitted =
        (truncQ (s.network_throughput * interval) : ℚ) +
          ((removeEntry (filterOffline members st.host st.registry) (st.host, s)).map
            fun p =>
              ((truncQ (p.2.network_throughput * interval) : ℤ) : ℚ)).sum ∧
      (getCloudSupply members st interval).2.memory_used =
        s.memory_used +
          ((removeEntry (filterOffline members st.host st.registry) (st.host, s)).map
            fun p => p.2.memory_used).sum := by
  have hsome := reach_local_present hre
  cases hget : alGet st.registry st.host with
  | none => rw [hget] at hsome; simp at hsome
  | some s =>
    have hfil : alGet (filterOffline members st.host st.registry) st.host =
        some s := by
      rw [alGet_filterOffline]
      simpa using hget
    have hmem : (st.host, s) ∈ filterOffline members st.host st.registry :=
      alGet_mem hfil
    have key : ∀ g : String × HostSupply → ℚ,
        ((filterOffline members st.host st.registry).map g).sum =
          g (st.host, s) +
            ((removeEntry (filterOffline members st.host st.registry)
              (st.host, s)).map g).sum :=
      fun g => sum_map_removeEntry g hmem
    refine ⟨s, rfl, hfil, ?_, ?_, ?_, ?_, ?_, ?_⟩
    all_goals
      simp [getCloudSupply, foldl_supplyAccum, key]

/-- Witness for `cloud_supply_includes_local`: the freshly constructed
state of host `h0`, members `["h0"]`, interval 1. -/
theorem cloud_supply_includes_local_witness :
    CSReach (initState ["h0"] exLocal) ∧
    (∃ s : HostSupply,
      alGet (initState ["h0"] exLocal).registry
        (initState ["h0"] exLocal).host = some s ∧
      alGet (getCloudSupply ["h0"] (initState ["h0"] exLocal) 1).1.registry
        (initState ["h0"] exLocal).host = some s ∧
      (getCloudSupply ["h0"] (initState ["h0"] exLocal) 1).2.cpu_time =
        (truncQ (s.cpu_cores_weighted * 1) : ℚ) +
          ((removeEntry (filterOffline ["h0"] (initState ["h0"] exLocal).host
              (initState ["h0"] exLocal).registry)
              ((initState ["h0"] exLocal).host, s)).map
            fun p => ((truncQ (p.2.cpu_cores_weighted * 1) : ℤ) : ℚ)).sum ∧
      (getCloudSupply ["h0"] (initState ["h0"] exLocal) 1).2.disk_bytes_read =
        (truncQ (s.disk_speeds * 1) : ℚ) +
          ((removeEntry (filterOffline ["h0"] (initState ["h0"] exLocal).host
              (initState ["h0"] exLocal).registry)
              ((initState ["h0"] exLocal).host, s)).map
            fun p => ((truncQ (p.2.disk_speeds * 1) : ℤ) : ℚ)).sum ∧
      (getCloudSupply ["h0"] (initState ["h0"] exLocal) 1).2.disk_bytes_written =
        (truncQ (s.disk_speeds * 1) : ℚ) +
          ((removeEntry (filterOffline ["h0"] (initState ["h0"] exLocal).host
              (initState ["h0"] exLocal).registry)
              ((initState ["h0"] exLocal).host, s)).map
            fun p => ((truncQ (p.2.disk_speeds * 1) : ℤ) : ℚ)).sum ∧
      (getCloudSupply ["h0"]
          (initState ["h0"] exLocal) 1).2.network_bytes_received =
        (truncQ (s.network_throughput * 1) : ℚ) +
          ((removeEntry (filterOffline ["h0"] (initState ["h0"] exLocal).host
              (initState ["h0"] exLocal).registry)
              ((initState ["h0"] exLocal).host, s)).map
            fun p => ((truncQ (p.2.network_throughput * 1) : ℤ) : ℚ)).sum ∧
      (getCloudSupply ["h0"]
          (initState ["h0"] exLocal) 1).2.network_bytes_transmitted =
        (truncQ (s.network_throughput * 1) : ℚ) +
          ((removeEntry (filterOffline ["h0"] (initState ["h0"] exLocal).host
              (initState ["h0"] exLocal).registry)
              ((initState ["h0"] exLocal).host, s)).map
            fun p => ((truncQ (p.2.network_throughput * 1) : ℤ) : ℚ)).sum ∧
      (getCloudSupply ["h0"] (initState ["h0"] exLocal) 1).2.memory_used =
        s.memory_used +
          ((removeEntry (filterOffline ["h0"] (initState ["h0"] exLocal).host
              (initState ["h0"] exLocal).registry)
              ((initState ["h0"] exLocal).host, s)).map
            fun p => p.2.memory_used).sum) :=
  ⟨CSReach.init ["h0"] exLocal,
   cloud_supply_includes_local ["h0"] 1 (CSReach.init ["h0"] exLocal)⟩

/-! ## The RUI collection helper (`nova/fairness/manager.py`) -/

/-- Dict assignment `d[k] = v`: replace in place when the key exists,
append otherwise. -/
def alPut {κ α : Type} [DecidableEq κ] (l : List (κ × α)) (k : κ) (v : α) :
    List (κ × α) :=
  if (alGet l k).isSome then alSet l k v else l ++ [(k, v)]

/-- Dict assignment always makes the key map to the new value. -/
theorem alGet_alPut_self {κ α : Type} [DecidableEq κ] (l : List (κ × α))
    (k : κ) (v : α) : alGet (alPut l k v) k = some v := by
  unfold alPut
  split_ifs with h
  · cases hc : alGet l k with
    | none => rw [hc] at h; simp at h
    | some w => exact alGet_alSet_self v hc
  · have hc : alGet l k = none := by
      cases hc2 : alGet l k with
      | none => rfl
      | some w => rw [hc2] at h; simp at h
    rw [alGet_append_none _ hc]
    simp [alGet]

/-- State of `FairnessManager.RUICollectionHelper` relevant to demand
collection: `_time_since_last_collection` (`None` until a second tick has
fired), the absolute counter snapshots `_full_demands`, and
`_interval_demands`, whose stored values can themselves be Python `None`.
Keys are the instance-name tags of the demand objects. -/
structure RUIState where
  interval : Option ℚ
  fullDemands : List (Option String × ResourceInformation)
  intervalDemands : List (Option String × Option ResourceInformation)
deriving DecidableEq, Repr

/-- The interval sample built by `add_instance_demand` when a previous
absolute snapshot exists: the five rate dimensions are differences
against the snapshot, but `memory_used` is copied from the new absolute
demand, and the tags come from the new demand. -/
def intervalDiff (demand lastFull : ResourceInformation) :
    ResourceInformation :=
  { cpu_time := demand.cpu_time - lastFull.cpu_time
    disk_bytes_read := demand.disk_bytes_read - lastFull.disk_bytes_read
    disk_bytes_written :=
      demand.disk_bytes_written - lastFull.disk_bytes_written
    network_bytes_received :=
      demand.network_bytes_received - lastFull.network_bytes_received
    network_bytes_transmitted :=
      demand.network_bytes_transmitted - lastFull.network_bytes_transmitted
    memory_used := demand.memory_used
    compute_host := demand.compute_host
    user_id := demand.user_id
    instance_name := demand.instance_name }

/-- Method `RUICollectionHelper.add_instance_demand` with decay factor `α`
(`CONF.fairness.resource_decay_factor`); the optional CSV stats export is
an external sink and is not modelled.  When the instance is known to both
maps, the interval sample is `intervalDiff`; a stored `None` is replaced
by the sample, otherwise the EWMA `old * (1 - α) + new * α` is stored
(with the source's operator calls, so tags follow the left operands).  An
instance unknown to either map stores `None` on a first-ever tick and the
absolute demand otherwise. -/
def addInstanceDemand (α : ℚ) (st : RUIState)
    (demand : ResourceInformation) : RUIState :=
  let name := demand.instance_name
  match alGet st.intervalDemands name, alGet st.fullDemands name with
  | some stored, some lastFull =>
      let new := intervalDiff demand lastFull
      let updated : Option ResourceInformation :=
        match stored with
        | none => some new
        | some old =>
            some (ResourceInformation.add
              (ResourceInformation.mulScalar old (1 - α))
              (ResourceInformation.mulScalar new α))
      { st with
        intervalDemands := alPut st.intervalDemands name updated
        fullDemands := alPut st.fullDemands name demand }
  | _, _ =>
      { st with
        intervalDemands :=
          alPut st.intervalDemands name
            (match st.interval with
             | none => none
             | some _ => some demand)
        fullDemands := alPut st.fullDemands name demand }

/-- The previous absolute snapshot of instance `vm1` (memory gauge 4). -/
def ruiLast : ResourceInformation :=
  { cpu_time := 100, disk_bytes_read := 10, disk_bytes_written := 20,
    network_bytes_received := 30, network_bytes_transmitted := 40,
    memory_used := 4, compute_host := some "h0", user_id := some "u1",
    instance_name := some "vm1" }

/-- The new absolute sample of instance `vm1` (memory gauge 10). -/
def ruiNow : ResourceInformation :=
  { cpu_time := 150, disk_bytes_read := 16, disk_bytes_written := 23,
    network_bytes_received := 42, network_bytes_transmitted := 51,
    memory_used := 10, compute_host := some "h0", user_id := some "u1",
    instance_name := some "vm1" }

/-- Helper state in which `vm1` has a full snapshot and a stored `None`
interval demand, with a 10-second interval. -/
def rui0 : RUIState :=
  { interval := some 10
    fullDemands := [(some "vm1", ruiLast)]
    intervalDemands := [(some "vm1", none)] }

/-- C3, counterexample: on the concrete tick of `vm1` the stored interval
sample is `intervalDiff ruiNow ruiLast`, whose `memory_used` is the new
absolute gauge 10, not the componentwise difference 6 — so the sample is
not `full_now − fullDemand[v]` in all six dimensions. -/
theorem rui_memory_counterexample :
    alGet (addInstanceDemand (1 / 2) rui0 ruiNow).intervalDemands
        (some "vm1") = some (some (intervalDiff ruiNow ruiLast)) ∧
    (intervalDiff ruiNow ruiLast).memory_used = 10 ∧
    (riSubSpec ruiNow ruiLast).memory_used = 6 ∧
    intervalDiff ruiNow ruiLast ≠ riSubSpec ruiNow ruiLast := by
  refine ⟨?_, ?_, ?_, ?_⟩
  · simp [addInstanceDemand, rui0, ruiNow, alGet, alPut, alSet]
  · norm_num [intervalDiff, ruiNow]
  · norm_num [riSubSpec, ruiNow, ruiLast]
  · intro h
    have hc := congrArg ResourceInformation.memory_used h
    norm_num [intervalDiff, riSubSpec, ruiNow, ruiLast] at hc

/-- C3, amended: on a tick for an instance known to both maps, the new
interval sample differs from the previous absolute snapshot in the five
rate dimensions but copies the new absolute `memory_used`, and carries the
new sample's tags; the stored interval demand becomes the sample if the
stored value was `None`, and the EWMA `old × (1 − α) + new × α`
otherwise; the full snapshot is replaced by the new absolute demand. -/
theorem rui_add_demand_amended (α : ℚ) (st : RUIState)
    (demand lastFull : ResourceInformation)
    (stored : Option ResourceInformation)
    (hint : alGet st.intervalDemands demand.instance_name = some stored)
    (hfull : alGet st.fullDemands demand.instance_name = some lastFull) :
    (intervalDiff demand lastFull).cpu_time =
        demand.cpu_time - lastFull.cpu_time ∧
    (intervalDiff demand lastFull).disk_bytes_read =
        demand.disk_bytes_read - lastFull.disk_bytes_read ∧
    (intervalDiff demand lastFull).disk_bytes_written =
        demand.disk_bytes_written - lastFull.disk_bytes_written ∧
    (intervalDiff demand lastFull).network_bytes_received =
        demand.network_bytes_received - lastFull.network_bytes_received ∧
    (intervalDiff demand lastFull).network_bytes_transmitted =
        demand.network_bytes_transmitted - lastFull.network_bytes_transmitted ∧
    (intervalDiff demand lastFull).memory_used = demand.memory_used ∧
    (intervalDiff demand lastFull).compute_host = demand.compute_host ∧
    (intervalDiff demand lastFull).user_id = demand.user_id ∧
    (intervalDiff demand lastFull).instance_name = demand.instance_name ∧
    alGet (addInstanceDemand α st demand).fullDemands demand.instance_name =
      some demand ∧
    (stored = none →
      alGet (addInstanceDemand α st demand).intervalDemands
          demand.instance_name =
        some (some (intervalDiff demand lastFull))) ∧
    (∀ old : ResourceInformation, stored = some old →
      alGet (addInstanceDemand α st demand).intervalDemands
          demand.instance_name =
        some (some (ResourceInformation.add
          (ResourceInformation.mulScalar old (1 - α))
          (ResourceInformation.mulScalar (intervalDiff demand lastFull)
            α)))) := by
  refine ⟨rfl, rfl, rfl, rfl, rfl, rfl, rfl, rfl, rfl, ?_, ?_, ?_⟩
  · cases stored with
    | none =>
      simp only [addInstanceDemand, hint, hfull]
      exact alGet_alPut_self _ _ _
    | some old =>
      simp only [addInstanceDemand, hint, hfull]
      exact alGet_alPut_self _ _ _
  · intro hs
    subst hs
    simp only [addInstanceDemand, hint, hfull]
    exact alGet_alPut_self _ _ _
  · intro old hs
    subst hs
    simp only [addInstanceDemand, hint, hfull]
    exact alGet_alPut_self _ _ _

/-- Witness for `rui_add_demand_amended` on the concrete `vm1` tick with
decay factor 1/2 and a stored `None` interval demand. -/
theorem rui_add_demand_amended_witness :
    alGet rui0.intervalDemands ruiNow.instance_name = some none ∧
    alGet rui0.fullDemands ruiNow.instance_name = some ruiLast ∧
    ((intervalDiff ruiNow ruiLast).cpu_time =
        ruiNow.cpu_time - ruiLast.cpu_time ∧
     (intervalDiff ruiNow ruiLast).disk_bytes_read =
        ruiNow.disk_bytes_read - ruiLast.disk_bytes_read ∧
     (intervalDiff ruiNow ruiLast).disk_bytes_written =
        ruiNow.disk_bytes_written - ruiLast.disk_bytes_written ∧
     (intervalDiff ruiNow ruiLast).network_bytes_received =
        ruiNow.network_bytes_received - ruiLast.network_bytes_received ∧
     (intervalDiff ruiNow ruiLast).network_bytes_transmitted =
        ruiNow.network_bytes_transmitted -
          ruiLast.network_bytes_transmitted ∧
     (intervalDiff ruiNow ruiLast).memory_used = ruiNow.memory_used ∧
     (intervalDiff ruiNow ruiLast).compute_host = ruiNow.compute_host ∧
     (intervalDiff ruiNow ruiLast).user_id = ruiNow.user_id ∧
     (intervalDiff ruiNow ruiLast).instance_name = ruiNow.instance_name ∧
     alGet (addInstanceDemand (1 / 2) rui0 ruiNow).fullDemands
        ruiNow.instance_name = some ruiNow ∧
     ((none : Option ResourceInformation) = none →
       alGet (addInstanceDemand (1 / 2) rui0 ruiNow).intervalDemands
          ruiNow.instance_name =
         some (some (intervalDiff ruiNow ruiLast))) ∧
     (∀ old : ResourceInformation,
        (none : Option ResourceInformation) = some old →
       alGet (addInstanceDemand (1 / 2) rui0 ruiNow).intervalDemands
          ruiNow.instance_name =
         some (some (ResourceInformation.add
           (ResourceInformation.mulScalar old (1 - 1 / 2))
           (ResourceInformation.mulScalar (intervalDiff ruiNow ruiLast)
             (1 / 2)))))) :=
  ⟨by simp [rui0, ruiNow, alGet],
   by simp [rui0, ruiNow, ruiLast, alGet],
   rui_add_demand_amended (1 / 2) rui0 ruiNow ruiLast none
     (by simp [rui0, ruiNow, alGet])
     (by simp [rui0, ruiNow, ruiLast, alGet])⟩

/-! ## The heaviness exchange (`nova/fairness/manager.py`) -/

/-- One `receive_heavinesses` payload: the originating host
(`compute_host`, stripped before queueing) and the remaining per-instance
entries, abstracted to instance-name/heaviness pairs. -/
structure Heavinesses where
  compute_host : String
  entries : List (String × ℚ)
deriving DecidableEq, Repr

/-- The `_fairness_heavinesses` dict: per-host FIFO queues of stripped
payloads (queue front first). -/
abbrev HeavinessExchange := List (String × List (List (String × ℚ)))

/-- Method `FairnessManager._add_heavinesses`: strip `compute_host` and
enqueue the entries into the sender's queue, creating the queue on first
contact. -/
def addHeavinesses (ex : HeavinessExchange) (h : Heavinesses) :
    HeavinessExchange :=
  match alGet ex h.compute_host with
  | some q => alSet ex h.compute_host (q ++ [h.entries])
  | none => ex ++ [(h.compute_host, [h.entries])]

/-- Method `FairnessManager._all_heavinesses_collected`: purge queues of
hosts that are no longer live members, then report whether every
*remaining* queue is non-empty (vacuously true for an empty exchange).
The membership oracle is modelled as available; the source returns
`False` when it is not. -/
def allHeavinessesCollected (members : List String) (ex : HeavinessExchange) :
    HeavinessExchange × Bool :=
  let purged := ex.filter (fun p => decide (p.1 ∈ members))
  (purged, purged.all (fun p => !p.2.isEmpty))

/-- Method `FairnessManager.receive_heavinesses`: enqueue the payload and
evaluate the collection gate; the Bool is `true` exactly when
`ResourceAllocator.reallocate()` is triggered. -/
def receiveHeavinesses (members : List String) (ex : HeavinessExchange)
    (h : Heavinesses) : HeavinessExchange × Bool :=
  allHeavinessesCollected members (addHeavinesses ex h)

/-- A heaviness payload from host `A`. -/
def heavFromA : Heavinesses := ⟨"A", [("vm1", 1)]⟩

/-- C4, counterexample: with live members `{A, B}` and an empty exchange,
a single payload from `A` triggers `reallocate()` even though the live
member `B` has no queued heaviness map at all — the gate only inspects
the queues that exist in the exchange. -/
theorem heaviness_gate_counterexample :
    (receiveHeavinesses ["A", "B"] [] heavFromA).2 = true ∧
    ¬(∀ m ∈ (["A", "B"] : List String),
        ∃ q, alGet (receiveHeavinesses ["A", "B"] [] heavFromA).1 m =
            some q ∧ q ≠ []) := by
  constructor
  · simp [receiveHeavinesses, addHeavinesses, allHeavinessesCollected,
      heavFromA, alGet]
  · intro hall
    obtain ⟨q, hq, -⟩ := hall "B" (by simp)
    simp [receiveHeavinesses, addHeavinesses, allHeavinessesCollected,
      heavFromA, alGet] at hq

/-- C4, amended: `receive_heavinesses` triggers `reallocate()` exactly
when, after enqueueing the payload and purging departed peers, every
queue *present in the exchange* is non-empty — live members that never
reported impose no constraint; all surviving queues belong to live
members. -/
theorem heaviness_gate_amended (members : List String)
    (ex : HeavinessExchange) (h : Heavinesses) :
    (receiveHeavinesses members ex h).1 =
      (addHeavinesses ex h).filter (fun p => decide (p.1 ∈ members)) ∧
    ((receiveHeavinesses members ex h).2 = true ↔
      ∀ p ∈ (receiveHeavinesses members ex h).1, p.2 ≠ []) ∧
    (∀ p ∈ (receiveHeavinesses members ex h).1, p.1 ∈ members) := by
  refine ⟨rfl, ?_, ?_⟩
  · simp only [receiveHeavinesses, allHeavinessesCollected,
      List.all_eq_true, List.mem_filter, decide_eq_true_eq,
      Bool.not_eq_eq_eq_not, Bool.not_true, List.isEmpty_eq_false,
      ne_eq, Prod.forall, and_imp]
  · intro p hp
    simp only [receiveHeavinesses, allHeavinessesCollected,
      List.mem_filter, decide_eq_true_eq] at hp
    exact hp.2

/-- Witness for `heaviness_gate_amended` at members `{A, B}`, the empty
exchange and the payload from `A`. -/
theorem heaviness_gate_amended_witness :
    ((receiveHeavinesses ["A", "B"] [] heavFromA).1 =
      (addHeavinesses [] heavFromA).filter
        (fun p => decide (p.1 ∈ (["A", "B"] : List String))) ∧
    ((receiveHeavinesses ["A", "B"] [] heavFromA).2 = true ↔
      ∀ p ∈ (receiveHeavinesses ["A", "B"] [] heavFromA).1, p.2 ≠ []) ∧
    (∀ p ∈ (receiveHeavinesses ["A", "B"] [] heavFromA).1,
      p.1 ∈ (["A", "B"] : List String))) :=
  heaviness_gate_amended ["A", "B"] [] heavFromA

end NovaFairness
